import Mathlib

/-!
Shallow embedding of the memory-match game state controller
(`src/hooks/useGameLogic.js` of the Reactjs-Task-Gaming repository).

The hook owns a single piece of state

  { cards, selectedCards, attempts, gameStatus, isChecking }

and exposes `handleCardClick` and `restartGame`.  Match evaluation
(`checkForMatch`) runs from a `useEffect` whenever the selection reaches
two cards; a second `useEffect` evaluates the end condition whenever
cards, attempts or status change.  A non-matching pair schedules a
`setTimeout` callback that flips the two cards back; `restartGame` merely
replaces the state and does not clear that timeout.

Machine integers do not occur; ids, flavours and counters are modelled as
`Nat`.  A JavaScript runtime error (reading a field of `undefined`) is
modelled as `none`.  The `setTimeout` queue is modelled as an explicit
list of pending callbacks in the surrounding system state, fired by a
separate event; this reflects the single-threaded event-loop semantics in
which the effect flush of a click always precedes the (positively
delayed) timer callback.
-/

namespace MemoryMatch

/-- Game status: the string `gameStatus` field, one of
`playing`, `won` or `lost`. -/
inductive GameStatus where
  | playing
  | won
  | lost
deriving DecidableEq, Repr

/-- A card object as built by `initializeGame`:
`{ id, flavour, isFlipped, isMatched }`. -/
structure Card where
  id : Nat
  flavour : Nat
  isFlipped : Bool
  isMatched : Bool
deriving DecidableEq, Repr

/-- The state object owned by the hook:
`{ cards, selectedCards, attempts, gameStatus, isChecking }`. -/
structure GameState where
  cards : List Card
  selectedCards : List Nat
  attempts : Nat
  gameStatus : GameStatus
  isChecking : Bool
deriving DecidableEq, Repr

/-- Modelled from the spec: `MAX_ATTEMPTS` lives in the absent
`src/utils/constants.js`; the spec and the in-repo design document both
fix the attempt budget at 15. -/
def MAX_ATTEMPTS : Nat := 15

/-- Modelled from the spec: `FLAVOURS` lives in the absent
`src/utils/constants.js`; the spec and the in-repo design document both
fix it at 6 distinct symbols ("6 unique flavours, 2 of each").  We model
the six symbols as the numbers 0..5. -/
def FLAVOURS : List Nat := [0, 1, 2, 3, 4, 5]

/-- Modelled from the spec: `generateId` lives in the absent
`src/utils/gameHelpers.js`; per the spec a card `id` is a "unique
identifier".  We model the generator as a counter: the k-th call after
base `n` returns `n + k`, so ids from different sessions never collide. -/
def cardPairs (base : Nat) : List Card :=
  (List.range 6).flatMap fun f =>
    [ { id := base + 2 * f, flavour := f, isFlipped := false, isMatched := false },
      { id := base + 2 * f + 1, flavour := f, isFlipped := false, isMatched := false } ]

/-- Function `initializeGame` (lines 6-19): builds the 12 card pair objects and
returns the fresh state.  `shuffleArray` lives in the absent
`src/utils/gameHelpers.js`; modelled from the spec ("shuffles them
uniformly at random") as a parameter `shuffle`, constrained to be a
permutation where a claim needs it. -/
def initializeGame (shuffle : List Card → List Card) (base : Nat) : GameState :=
  { cards := shuffle (cardPairs base)
    selectedCards := []
    attempts := 0
    gameStatus := .playing
    isChecking := false }

/-- Function `flipCard` (lines 23-31): mark the card flipped and append its id to
the selection. -/
def flipCard (cardId : Nat) (prev : GameState) : GameState :=
  { prev with
    cards := prev.cards.map fun card =>
      if card.id = cardId then { card with isFlipped := true } else card
    selectedCards := prev.selectedCards ++ [cardId] }

/-- The ids captured by the `setTimeout` closure scheduled for a
non-matching pair (lines 58-69). -/
structure Pending where
  firstCardId : Nat
  secondCardId : Nat
deriving DecidableEq, Repr

/-- The body of the `setTimeout` callback (lines 59-68): flip the two
captured cards back, clear the selection, drop `isChecking`.  Applied to
whatever the state is when the timer fires. -/
def revertCallback (firstCardId secondCardId : Nat) (prev : GameState) : GameState :=
  { prev with
    cards := prev.cards.map fun card =>
      if card.id = firstCardId || card.id = secondCardId then
        { card with isFlipped := false }
      else card
    selectedCards := []
    isChecking := false }

/-- Function `checkForMatch` (lines 33-71): destructure the two selected ids, look
both cards up, set `isChecking` and increment `attempts`; on equal
flavours mark both matched and clear the selection immediately, otherwise
schedule the revert callback.  Returns the new state together with the
scheduled callback, if any; `none` models the JavaScript `TypeError` when
a lookup yields `undefined` (never hit from reachable calls). -/
def checkForMatch (gameState : GameState) : Option (GameState × Option Pending) :=
  match gameState.selectedCards with
  | firstCardId :: secondCardId :: _ =>
    match gameState.cards.find? (fun card => card.id = firstCardId),
          gameState.cards.find? (fun card => card.id = secondCardId) with
    | some firstCard, some secondCard =>
      let st := { gameState with isChecking := true, attempts := gameState.attempts + 1 }
      if firstCard.flavour = secondCard.flavour then
        some ({ st with
                 cards := st.cards.map fun card =>
                   if card.id = firstCardId || card.id = secondCardId then
                     { card with isMatched := true }
                   else card
                 selectedCards := []
                 isChecking := false }, none)
      else
        some (st, some ⟨firstCardId, secondCardId⟩)
    | _, _ => none
  | _ => none

/-- The end-condition `useEffect` (lines 74-85): while playing, `won` if
every card is matched, else `lost` once `attempts >= MAX_ATTEMPTS`. -/
def checkGameEnd (gameState : GameState) : GameState :=
  if gameState.gameStatus ≠ .playing then gameState
  else if gameState.cards.all (fun card => card.isMatched) then
    { gameState with gameStatus := .won }
  else if gameState.attempts ≥ MAX_ATTEMPTS then
    { gameState with gameStatus := .lost }
  else gameState

/-- Function `handleCardClick` (lines 94-109): the three state guards, then the
card lookup, then the flipped/matched guard, then `flipCard`.  `none`
models the `TypeError` thrown when `find` returns `undefined` and the
code reads `card.isFlipped`. -/
def handleCardClick (cardId : Nat) (gameState : GameState) : Option GameState :=
  if gameState.isChecking
      || gameState.selectedCards.length ≥ 2
      || gameState.gameStatus ≠ .playing then
    some gameState
  else
    match gameState.cards.find? (fun c => c.id = cardId) with
    | none => none
    | some card =>
      if card.isFlipped || card.isMatched then some gameState
      else some (flipCard cardId gameState)

/-- Whole-system state: the committed hook state plus the queue of
outstanding `setTimeout` callbacks (`restartGame` never clears them, so
several may be outstanding across restarts) and the id counter of the
modelled `generateId`. -/
structure SysState where
  game : GameState
  pending : List Pending
  nextId : Nat
deriving DecidableEq, Repr

/-- The discrete events driving the system: a card click, an outstanding
timer firing (by queue index), and the restart button. -/
inductive Event where
  | click (cardId : Nat)
  | fireTimer (i : Nat)
  | restart
deriving DecidableEq, Repr

/-- One click event, with the React effect flush it triggers.  A guard
hit returns without calling `setState`, so no render and no effects
happen (`g = s.game`).  Otherwise `flipCard` commits; the end-condition
effect (declared first, lines 74-85) runs, then the selection effect
(lines 88-92) calls `checkForMatch` when the selection has two members;
its updates commit and the end-condition effect runs again.  The
selection effect does not re-fire after `checkForMatch`: its dependencies
(`selectedCards`, and `checkForMatch` via `cards`) are unchanged in the
no-match branch, and the selection is empty in the match branch. -/
def clickStep (cardId : Nat) (s : SysState) : Option SysState :=
  match handleCardClick cardId s.game with
  | none => none
  | some g =>
    if g = s.game then some s
    else
      let g1 := checkGameEnd g
      if g1.selectedCards.length = 2 then
        match checkForMatch g1 with
        | none => none
        | some (g2, scheduled) =>
          some { s with game := checkGameEnd g2, pending := s.pending ++ scheduled.toList }
      else
        some { s with game := g1 }

/-- The i-th outstanding timer fires: the functional update of its callback is
applied to the current state, and the effect flush runs the end-condition
effect (the selection effect sees an empty or unchanged selection and
does nothing). -/
def fireStep (i : Nat) (s : SysState) : Option SysState :=
  match s.pending[i]? with
  | none => none
  | some p =>
    some { s with
      game := checkGameEnd (revertCallback p.firstCardId p.secondCardId s.game)
      pending := s.pending.eraseIdx i }

/-- Function `restartGame` (lines 111-113): replaces the state with a fresh
`initializeGame()` — and nothing else: no `clearTimeout`, so `pending`
is carried over unchanged.  The effect flush after the commit runs the
end-condition effect on the fresh state. -/
def restartStep (shuffle : List Card → List Card) (s : SysState) : SysState :=
  { game := checkGameEnd (initializeGame shuffle s.nextId)
    pending := s.pending
    nextId := s.nextId + 12 }

/-- The system step function. -/
def step (shuffle : List Card → List Card) : Event → SysState → Option SysState
  | .click cardId, s => clickStep cardId s
  | .fireTimer i, s => fireStep i s
  | .restart, s => some (restartStep shuffle s)

/-- The state on mount: a fresh `initializeGame()` (the initial effect
flush includes the end-condition effect), no timers outstanding. -/
def init0 (shuffle : List Card → List Card) : SysState :=
  { game := checkGameEnd (initializeGame shuffle 0)
    pending := []
    nextId := 12 }

/-- States reachable from a fresh mount by clicks, timer firings and
restarts. -/
inductive Reachable (shuffle : List Card → List Card) : SysState → Prop where
  | init : Reachable shuffle (init0 shuffle)
  | step {s s' : SysState} {e : Event} :
      Reachable shuffle s → step shuffle e s = some s' → Reachable shuffle s'

/-- Run a list of events in order; `none` as soon as one errors. -/
def runEvents (shuffle : List Card → List Card) :
    List Event → SysState → Option SysState
  | [], s => some s
  | e :: es, s =>
    match step shuffle e s with
    | none => none
    | some s' => runEvents shuffle es s'

/-- The identity shuffle, used for concrete executions (any permutation
would do; the identity keeps the pairs adjacent: flavours in card order
are 0,0,1,1,2,2,3,3,4,4,5,5). -/
def shuffleId : List Card → List Card := fun l => l

theorem runEvents_reachable {shuffle : List Card → List Card}
    {es : List Event} {s s' : SysState}
    (hs : Reachable shuffle s) (h : runEvents shuffle es s = some s') :
    Reachable shuffle s' := by
  induction es generalizing s with
  | nil =>
    simp only [runEvents, Option.some.injEq] at h
    exact h ▸ hs
  | cons e es ih =>
    unfold runEvents at h
    cases hst : step shuffle e s with
    | none => simp [hst] at h
    | some s1 => exact ih (Reachable.step hs hst) (by simpa [hst] using h)

/-! ## Helper lemmas -/

theorem checkGameEnd_attempts (g : GameState) :
    (checkGameEnd g).attempts = g.attempts := by
  unfold checkGameEnd
  split
  · rfl
  · split
    · rfl
    · split <;> rfl

theorem checkGameEnd_playing_lt (g : GameState)
    (h : (checkGameEnd g).gameStatus = .playing) :
    (checkGameEnd g).attempts < MAX_ATTEMPTS := by
  by_cases h1 : g.gameStatus = .playing
  · by_cases h2 : g.cards.all (fun card => card.isMatched)
    · simp [checkGameEnd, h1, h2] at h
    · by_cases h3 : g.attempts ≥ MAX_ATTEMPTS
      · simp [checkGameEnd, h1, h2, h3] at h
      · have h4 := Nat.lt_of_not_le h3
        simpa [checkGameEnd, h1, h2, h3] using h4
  · simp [checkGameEnd, h1] at h

theorem checkGameEnd_of_playing_not_all_lt (g : GameState)
    (hplay : g.gameStatus = .playing)
    (hnall : g.cards.all (fun card => card.isMatched) = false)
    (hlt : g.attempts < MAX_ATTEMPTS) :
    checkGameEnd g = g := by
  simp [checkGameEnd, hplay, hnall, Nat.not_le.mpr hlt]

theorem checkGameEnd_of_not_playing (g : GameState)
    (h : g.gameStatus ≠ .playing) : checkGameEnd g = g := by
  simp [checkGameEnd, h]

/-- Inversion for the guard-passing, card-found, flip path of
`handleCardClick`. -/
theorem handleCardClick_some_ne (cardId : Nat) (g g' : GameState)
    (h : handleCardClick cardId g = some g') (hne : g' ≠ g) :
    g' = flipCard cardId g
      ∧ g.isChecking = false
      ∧ g.selectedCards.length < 2
      ∧ g.gameStatus = .playing
      ∧ ∃ card, g.cards.find? (fun c => c.id = cardId) = some card
          ∧ card.isFlipped = false ∧ card.isMatched = false := by
  unfold handleCardClick at h
  split at h
  · exact absurd (by simpa using h.symm) hne
  next hguard =>
    have hg : g.isChecking = false ∧ g.selectedCards.length < 2
        ∧ g.gameStatus = .playing := by
      simpa [not_or, Nat.not_le, Bool.not_eq_true, and_assoc] using hguard
    split at h
    · exact absurd h (by simp)
    next card hfind =>
      split at h
      · exact absurd (by simpa using h.symm) hne
      next hfm =>
        have hfm2 : card.isFlipped = false ∧ card.isMatched = false := by
          simpa [not_or, Bool.not_eq_true] using hfm
        exact ⟨by simpa using h.symm, hg.1, hg.2.1, hg.2.2,
          card, hfind, hfm2.1, hfm2.2⟩

/-- Inversion for `checkForMatch` when it schedules a revert callback:
this is exactly the no-match branch, which leaves cards and selection
alone, raises `isChecking` and increments `attempts`. -/
theorem checkForMatch_sched (g g2 : GameState) (p : Pending)
    (h : checkForMatch g = some (g2, some p)) :
    g2 = { g with isChecking := true, attempts := g.attempts + 1 } := by
  unfold checkForMatch at h
  split at h
  · split at h
    · split at h
      · simp at h
      · simp only [Option.some.injEq, Prod.mk.injEq] at h
        exact h.1.symm
    · simp at h
  · simp at h

/-- Inversion for `checkForMatch`: on any successful evaluation,
`attempts` increments by exactly one and the status is untouched. -/
theorem checkForMatch_attempts (g g2 : GameState) (sched : Option Pending)
    (h : checkForMatch g = some (g2, sched)) :
    g2.attempts = g.attempts + 1 ∧ g2.gameStatus = g.gameStatus := by
  unfold checkForMatch at h
  split at h
  · split at h
    · split at h <;>
      · simp only [Option.some.injEq, Prod.mk.injEq] at h
        rw [← h.1]
        exact ⟨rfl, rfl⟩
    · simp at h
  · simp at h

theorem flipCard_attempts (cardId : Nat) (g : GameState) :
    (flipCard cardId g).attempts = g.attempts := rfl

theorem flipCard_gameStatus (cardId : Nat) (g : GameState) :
    (flipCard cardId g).gameStatus = g.gameStatus := rfl

/-- Flipping a card preserves the `isMatched` column, hence the
all-matched test. -/
theorem flipCard_all_isMatched (cardId : Nat) (g : GameState) :
    ((flipCard cardId g).cards.all fun card => card.isMatched)
      = (g.cards.all fun card => card.isMatched) := by
  unfold flipCard
  simp only [List.all_map]
  congr 1
  funext c
  simp only [Function.comp]
  split <;> rfl

/-! ## Claim C4: selectCard on a nonexistent id -/

/-- C4 counterexample: on a fresh session, clicking the nonexistent id 99
passes the three state guards, `find` yields `undefined`, and reading
`card.isFlipped` throws (modelled as `none`) — the call is not a silent
no-op as the claim states. -/
theorem C4_counterexample :
    ((init0 shuffleId).game.cards.all fun c => c.id != 99) = true
      ∧ handleCardClick 99 (init0 shuffleId).game = none
      ∧ step shuffleId (.click 99) (init0 shuffleId) = none := by
  decide

/-- C4 (amended): for an id that belongs to no card, `selectCard` is a
silent no-op exactly when one of the three leading guards (`isResolving`,
selection already full, status not `playing`) short-circuits the call;
otherwise the lookup misses and reading the flipped flag of the missing
card raises a `TypeError` (modelled as `none`).  No state is mutated in
either case. -/
theorem C4_amended (g : GameState) (cardId : Nat)
    (habsent : ∀ c ∈ g.cards, c.id ≠ cardId) :
    handleCardClick cardId g =
      if g.isChecking = true ∨ 2 ≤ g.selectedCards.length
          ∨ g.gameStatus ≠ .playing
      then some g
      else none := by
  have hfind : g.cards.find? (fun c => c.id = cardId) = none :=
    List.find?_eq_none.mpr (fun c hc => by simpa using habsent c hc)
  by_cases hguard : g.isChecking = true ∨ 2 ≤ g.selectedCards.length
      ∨ g.gameStatus ≠ .playing
  · rw [if_pos hguard]
    unfold handleCardClick
    rw [if_pos (by simpa [Bool.or_eq_true, decide_eq_true_eq, or_assoc] using hguard)]
  · rw [if_neg hguard]
    unfold handleCardClick
    rw [if_neg (by simpa [Bool.or_eq_true, decide_eq_true_eq, or_assoc] using hguard),
      hfind]

/-- C4 amended, witnessed on a fresh session and the absent id 99. -/
theorem C4_amended_witness :
    handleCardClick 99 (init0 shuffleId).game = none := by
  rw [C4_amended (init0 shuffleId).game 99 (by decide)]
  decide

/-! ## Claim C5: guarded clicks on existing cards are no-ops -/

/-- C5: for any session and any id that resolves to a card, the click is
a complete no-op — same session, same timer queue — whenever the card is
already flipped or matched, a resolution is in progress, the selection
already has two members, or the game has ended. -/
theorem C5_invalid_click_noop (shuffle : List Card → List Card)
    (s : SysState) (cardId : Nat) (card : Card)
    (hfind : s.game.cards.find? (fun c => c.id = cardId) = some card)
    (h : card.isFlipped = true ∨ card.isMatched = true
      ∨ s.game.isChecking = true ∨ 2 ≤ s.game.selectedCards.length
      ∨ s.game.gameStatus ≠ .playing) :
    step shuffle (.click cardId) s = some s := by
  have hclick : handleCardClick cardId s.game = some s.game := by
    unfold handleCardClick
    by_cases hguard : (s.game.isChecking
        || decide (s.game.selectedCards.length ≥ 2)
        || decide (s.game.gameStatus ≠ GameStatus.playing)) = true
    · rw [if_pos hguard]
    · have hg1 : s.game.isChecking = false := by
        by_cases hh : s.game.isChecking = true
        · exact absurd (by simp [hh]) hguard
        · simpa using hh
      have hg2 : s.game.selectedCards.length < 2 := by
        by_cases hh : 2 ≤ s.game.selectedCards.length
        · exact absurd (by simp [hh]) hguard
        · omega
      have hg3 : s.game.gameStatus = .playing := by
        by_cases hh : s.game.gameStatus = .playing
        · exact hh
        · exact absurd (by simp [hh]) hguard
      have hfm : (card.isFlipped || card.isMatched) = true := by
        rcases h with h | h | h | h | h
        · simp [h]
        · simp [h]
        · rw [hg1] at h; exact absurd h (by simp)
        · exact absurd h (Nat.not_le.mpr hg2)
        · exact absurd hg3 h
      rw [if_neg hguard, hfind]
      simp [hfm]
  simp [step, clickStep, hclick]

/-- A session with card 0 already flipped, used to witness C5. -/
def c5sys : SysState :=
  { game := { cards := [⟨0, 0, true, false⟩, ⟨1, 0, false, false⟩]
              selectedCards := [0]
              attempts := 0
              gameStatus := .playing
              isChecking := false }
    pending := []
    nextId := 2 }

/-- C5 witnessed: clicking the already-flipped card 0 changes nothing. -/
theorem C5_witness : step shuffleId (.click 0) c5sys = some c5sys :=
  C5_invalid_click_noop shuffleId c5sys 0 ⟨0, 0, true, false⟩ (by decide)
    (Or.inl (by decide))

/-! ## Claim C6: the win condition is evaluated before the loss condition -/

/-- C6: in the end-condition evaluation, `allMatched` is tested before
`outOfAttempts`: a playing session whose 12 cards are all matched ends
`won` even when `attempts` equals the cap. -/
theorem C6_win_checked_first (g : GameState)
    (hplay : g.gameStatus = .playing)
    (_hlen : g.cards.length = 12)
    (hall : g.cards.all (fun card => card.isMatched) = true)
    (_hatt : g.attempts = MAX_ATTEMPTS) :
    (checkGameEnd g).gameStatus = .won := by
  simp [checkGameEnd, hplay, hall]

/-- A playing session with all 12 cards matched and the attempt budget
exhausted, used to witness C6. -/
def c6g : GameState :=
  { cards := (cardPairs 0).map fun c => { c with isMatched := true }
    selectedCards := []
    attempts := 15
    gameStatus := .playing
    isChecking := false }

/-- C6 witnessed: the all-matched, 15-attempt session ends `won`. -/
theorem C6_witness : (checkGameEnd c6g).gameStatus = .won :=
  C6_win_checked_first c6g (by decide) (by decide) (by decide) (by decide)

/-! ## Claim C7: an equal pair is resolved immediately -/

/-- Auxiliary: while playing, the end-condition evaluation yields `won`
exactly when every card is matched (otherwise it yields `lost` or stays
`playing`). -/
theorem checkGameEnd_won_iff (g : GameState) (hplay : g.gameStatus = .playing) :
    ((checkGameEnd g).gameStatus = .won)
      ↔ (g.cards.all fun card => card.isMatched) = true := by
  by_cases hall : (g.cards.all fun card => card.isMatched) = true
  · simp [checkGameEnd, hplay, hall]
  · by_cases hatt : g.attempts ≥ MAX_ATTEMPTS
    · simp [checkGameEnd, hplay, hall, hatt]
    · simp [checkGameEnd, hplay, hall, hatt]

/-- C7: when match evaluation is entered with two selected cards of equal
flavour, it schedules nothing; both selected cards are marked matched
immediately, `attempts` grows by exactly one, the selection empties,
`isChecking` ends false, and the subsequent end-condition evaluation
yields `won` precisely when every card (the 6th pair included) is now
matched. -/
theorem C7_match_immediate (g g2 : GameState) (sched : Option Pending)
    (a b : Nat) (ca cb : Card)
    (hsel : g.selectedCards = [a, b])
    (hfa : g.cards.find? (fun c => c.id = a) = some ca)
    (hfb : g.cards.find? (fun c => c.id = b) = some cb)
    (heq : ca.flavour = cb.flavour)
    (hplay : g.gameStatus = .playing)
    (hcm : checkForMatch g = some (g2, sched)) :
    sched = none
      ∧ g2.attempts = g.attempts + 1
      ∧ g2.selectedCards = []
      ∧ g2.isChecking = false
      ∧ (∀ c ∈ g2.cards, (c.id = a ∨ c.id = b) → c.isMatched = true)
      ∧ ((checkGameEnd g2).gameStatus = .won
          ↔ (g2.cards.all fun card => card.isMatched) = true) := by
  have hcm2 : checkForMatch g = some
      ({ g with
          cards := g.cards.map fun card =>
            if card.id = a || card.id = b then { card with isMatched := true }
            else card
          selectedCards := []
          attempts := g.attempts + 1
          isChecking := false }, none) := by
    unfold checkForMatch
    rw [hsel]
    simp only [hfa, hfb]
    rw [if_pos heq]
  rw [hcm2] at hcm
  simp only [Option.some.injEq, Prod.mk.injEq] at hcm
  obtain ⟨hg2, hsched⟩ := hcm
  subst hsched
  refine ⟨rfl, by rw [← hg2], by rw [← hg2], by rw [← hg2], ?_, ?_⟩
  · rw [← hg2]
    intro c hc hid
    rcases List.mem_map.mp hc with ⟨c0, _hc0, rfl⟩
    by_cases hcond : (decide (c0.id = a) || decide (c0.id = b)) = true
    · simp [hcond]
    · rw [if_neg hcond] at hid
      rcases hid with hid | hid
      · exact absurd (by simp [hid]) hcond
      · exact absurd (by simp [hid]) hcond
  · refine checkGameEnd_won_iff g2 ?_
    rw [← hg2]
    exact hplay

/-- A playing session holding two selected cards of the same flavour,
used to witness C7. -/
def c7g : GameState :=
  { cards := [⟨0, 0, true, false⟩, ⟨1, 0, true, false⟩]
    selectedCards := [0, 1]
    attempts := 0
    gameStatus := .playing
    isChecking := false }

/-- The state produced by running match evaluation on `c7g`. -/
def c7g2 : GameState := ((checkForMatch c7g).getD (c7g, none)).1

/-- C7 witnessed on the concrete equal pair of `c7g`. -/
theorem C7_witness :
    c7g2.attempts = c7g.attempts + 1
      ∧ c7g2.selectedCards = []
      ∧ c7g2.isChecking = false :=
  have h := C7_match_immediate c7g c7g2 none 0 1 ⟨0, 0, true, false⟩
    ⟨1, 0, true, false⟩ (by decide) (by decide) (by decide) (by decide)
    (by decide) (by decide)
  ⟨h.2.1, h.2.2.1, h.2.2.2.1⟩

/-! ## Claim C10: only the two flag columns ever change -/

/-- The identity-and-order skeleton of a card list: ids and flavours in
order.  Two lists with the same skeleton differ at most in the
`isFlipped` and `isMatched` columns of corresponding positions. -/
def skeleton (l : List Card) : List (Nat × Nat) := l.map fun c => (c.id, c.flavour)

theorem skeleton_map (l : List Card) (u : Card → Card)
    (hu : ∀ c, (u c).id = c.id ∧ (u c).flavour = c.flavour) :
    skeleton (l.map u) = skeleton l := by
  unfold skeleton
  rw [List.map_map]
  congr 1
  funext c
  simp [Function.comp, (hu c).1, (hu c).2]

/-- C10: a click, a match evaluation and a deferred reversion all
preserve the skeleton of the card list — no card is reordered, added or
removed and no id or flavour changes; only the two Boolean flags can
move.  (`restartGame` is the one operation excluded by the claim.) -/
theorem C10_frame (g : GameState) :
    (∀ cardId g', handleCardClick cardId g = some g' →
        skeleton g'.cards = skeleton g.cards)
      ∧ (∀ g2 sched, checkForMatch g = some (g2, sched) →
          skeleton g2.cards = skeleton g.cards)
      ∧ (∀ a b, skeleton (revertCallback a b g).cards = skeleton g.cards) := by
  refine ⟨?_, ?_, ?_⟩
  · intro cardId g' h
    unfold handleCardClick at h
    split at h
    · rw [← (by simpa using h : g = g')]
    · split at h
      · exact absurd h (by simp)
      · split at h
        · rw [← (by simpa using h : g = g')]
        · rw [show g' = flipCard cardId g from by simpa using h.symm]
          exact skeleton_map g.cards _ fun c => by constructor <;> split <;> rfl
  · intro g2 sched h
    unfold checkForMatch at h
    split at h
    · split at h
      · split at h
        · simp only [Option.some.injEq, Prod.mk.injEq] at h
          rw [← h.1]
          exact skeleton_map g.cards _ fun c => by constructor <;> split <;> rfl
        · simp only [Option.some.injEq, Prod.mk.injEq] at h
          rw [← h.1]
      · exact absurd h (by simp)
    · exact absurd h (by simp)
  · intro a b
    exact skeleton_map g.cards _ fun c => by constructor <;> split <;> rfl

/-- C10 witnessed: a reversion and a successful click on the concrete
session `c5sys` keep the skeleton. -/
theorem C10_witness :
    skeleton (revertCallback 0 2 c5sys.game).cards = skeleton c5sys.game.cards
      ∧ skeleton (flipCard 1 c5sys.game).cards = skeleton c5sys.game.cards :=
  ⟨(C10_frame c5sys.game).2.2 0 2,
   (C10_frame c5sys.game).1 1 (flipCard 1 c5sys.game) (by decide)⟩

/-! ## Claim C9: initialize and restart produce a fresh 12-card session -/

theorem cardPairs_length (base : Nat) : (cardPairs base).length = 12 := rfl

theorem cardPairs_flavours (base : Nat) :
    ((cardPairs base).map fun c => c.flavour)
      = [0, 0, 1, 1, 2, 2, 3, 3, 4, 4, 5, 5] := rfl

theorem cardPairs_all_fresh (base : Nat) :
    ∀ c ∈ cardPairs base, c.isFlipped = false ∧ c.isMatched = false := by
  intro c hc
  simp only [cardPairs, List.mem_flatMap, List.mem_range] at hc
  obtain ⟨f, _, hf⟩ := hc
  simp only [List.mem_cons, List.not_mem_nil, or_false] at hf
  rcases hf with rfl | rfl
  · exact ⟨rfl, rfl⟩
  · exact ⟨rfl, rfl⟩

theorem initializeGame_head_mem (shuffle : List Card → List Card)
    (hsh : ∀ l, List.Perm (shuffle l) l) (base : Nat) :
    (⟨base, 0, false, false⟩ : Card) ∈ (initializeGame shuffle base).cards := by
  have h1 : (⟨base, 0, false, false⟩ : Card) ∈ cardPairs base := by
    simp only [cardPairs]
    exact List.mem_flatMap.mpr ⟨0, by simp, by simp⟩
  exact ((hsh (cardPairs base)).mem_iff).mpr h1

theorem initializeGame_not_all_matched (shuffle : List Card → List Card)
    (hsh : ∀ l, List.Perm (shuffle l) l) (base : Nat) :
    ((initializeGame shuffle base).cards.all fun card => card.isMatched) = false := by
  rw [Bool.eq_false_iff]
  intro hall
  have h2 := List.all_eq_true.mp hall _ (initializeGame_head_mem shuffle hsh base)
  simp at h2

/-- C9: `restartGame` from any state replaces the session with a plain
`initializeGame()`, and any `initializeGame()` result has 12 cards, each
of the 6 flavours exactly twice, zero attempts, status `playing`, an
empty selection, `isChecking` off, and all cards face-down and
unmatched. -/
theorem C9_initialize_fresh (shuffle : List Card → List Card)
    (hsh : ∀ l, List.Perm (shuffle l) l) (base : Nat) (s : SysState) :
    step shuffle .restart s = some (restartStep shuffle s)
      ∧ (restartStep shuffle s).game = initializeGame shuffle s.nextId
      ∧ (initializeGame shuffle base).cards.length = 12
      ∧ (∀ f ∈ FLAVOURS,
          ((initializeGame shuffle base).cards.map fun c => c.flavour).count f = 2)
      ∧ (initializeGame shuffle base).attempts = 0
      ∧ (initializeGame shuffle base).gameStatus = .playing
      ∧ (initializeGame shuffle base).selectedCards = []
      ∧ (initializeGame shuffle base).isChecking = false
      ∧ (∀ c ∈ (initializeGame shuffle base).cards,
          c.isFlipped = false ∧ c.isMatched = false) := by
  refine ⟨rfl, ?_, ?_, ?_, rfl, rfl, rfl, rfl, ?_⟩
  · show checkGameEnd (initializeGame shuffle s.nextId) = initializeGame shuffle s.nextId
    exact checkGameEnd_of_playing_not_all_lt _ rfl
      (initializeGame_not_all_matched shuffle hsh s.nextId)
      (show 0 < 15 by omega)
  · show (shuffle (cardPairs base)).length = 12
    rw [(hsh (cardPairs base)).length_eq, cardPairs_length]
  · intro f hf
    have hperm : List.Perm ((initializeGame shuffle base).cards.map fun c => c.flavour)
        ((cardPairs base).map fun c => c.flavour) :=
      (hsh (cardPairs base)).map _
    rw [hperm.count_eq, cardPairs_flavours]
    fin_cases hf <;> rfl
  · intro c hc
    exact cardPairs_all_fresh base c (((hsh (cardPairs base)).mem_iff).mp hc)

/-- C9 witnessed with the identity shuffle from the freshly mounted
system state. -/
theorem C9_witness :
    (initializeGame shuffleId 0).cards.length = 12
      ∧ (initializeGame shuffleId 0).attempts = 0
      ∧ (initializeGame shuffleId 0).gameStatus = .playing
      ∧ step shuffleId .restart (init0 shuffleId)
          = some (restartStep shuffleId (init0 shuffleId)) :=
  have h := C9_initialize_fresh shuffleId (fun l => List.Perm.refl l) 0 (init0 shuffleId)
  ⟨h.2.2.1, h.2.2.2.2.1, h.2.2.2.2.2.1, h.1⟩

/-! ## Claim C1: restart does not cancel the pending reversion -/

/-- Events: select a non-matching pair (ids 0 and 2 carry flavours 0 and
1 under the identity shuffle), restart before the flip-back timer fires,
then select card 12 of the fresh session. -/
def c1evs : List Event := [.click 0, .click 2, .restart, .click 12]

/-- The system state after `c1evs`: a fresh session with card 12
selected, and the stale timer of the previous session still outstanding. -/
def c1state : SysState :=
  (runEvents shuffleId c1evs (init0 shuffleId)).getD (init0 shuffleId)

/-- The system state after the stale timer then fires. -/
def c1fired : SysState := (fireStep 0 c1state).getD c1state

set_option maxRecDepth 100000 in
/-- C1 exhibits the bug: `restartGame` only calls
`setGameState(initializeGame())` and never clears the flip-back timeout,
so after a restart the stale callback is still outstanding; when it fires
it wipes the selection of the fresh session (card 12 stays face-up with no way
to ever match it), i.e. the stale reversion does mutate the freshly
initialized session. -/
theorem C1_stale_reversion_mutates_fresh_session :
    runEvents shuffleId c1evs (init0 shuffleId) = some c1state
      ∧ c1state.pending = [⟨0, 2⟩]
      ∧ (c1state.game.cards.all fun c => c.id != 0 && c.id != 2) = true
      ∧ c1state.game.selectedCards = [12]
      ∧ step shuffleId (.fireTimer 0) c1state = some c1fired
      ∧ c1fired.game.selectedCards = []
      ∧ c1fired.game ≠ c1state.game := by
  decide

/-! ## Claims C2 and C3: what happens around the loss transition -/

/-- Events: fifteen rounds of the same non-matching pair (flavours 0 and
1 under the identity shuffle), firing the reversion timer after each of
the first fourteen. -/
def c2evs : List Event :=
  ((List.range 14).flatMap fun _ => [.click 0, .click 2, .fireTimer 0])
    ++ [.click 0, .click 2]

/-- The system state right after the 15th non-matching attempt: already
`lost`, with the 15th reversion still outstanding. -/
def c2state : SysState :=
  (runEvents shuffleId c2evs (init0 shuffleId)).getD (init0 shuffleId)

/-- The system state after that outstanding reversion fires. -/
def c2fired : SysState := (fireStep 0 c2state).getD c2state

set_option maxRecDepth 1000000 in
/-- C2 counterexample: a reachable session whose status is `lost` is
still mutated by a pending deferred callback — the reversion scheduled
for the 15th pair fires after the loss and changes the cards, the
selection and the `isResolving` flag. -/
theorem C2_counterexample :
    Reachable shuffleId c2state
      ∧ c2state.game.gameStatus = .lost
      ∧ step shuffleId (.fireTimer 0) c2state = some c2fired
      ∧ c2fired.game.cards ≠ c2state.game.cards
      ∧ c2fired.game.selectedCards ≠ c2state.game.selectedCards
      ∧ c2fired.game.isChecking ≠ c2state.game.isChecking := by
  have hrun : runEvents shuffleId c2evs (init0 shuffleId) = some c2state := by
    decide
  refine ⟨runEvents_reachable Reachable.init hrun, ?_, ?_, ?_, ?_, ?_⟩ <;> decide

/-- C2 (amended): once the status is `won` or `lost`, a click is a
complete no-op and only `restartGame` or an already-scheduled deferred
reversion changes anything; a reversion that fires then only flips the
two captured cards back, clears the selection and resets `isChecking` —
it leaves `attempts` and the status untouched. -/
theorem C2_amended (shuffle : List Card → List Card) (s : SysState)
    (h : s.game.gameStatus ≠ .playing) :
    (∀ cardId, step shuffle (.click cardId) s = some s)
      ∧ (∀ i p, s.pending[i]? = some p →
          step shuffle (.fireTimer i) s =
              some { s with
                game := revertCallback p.firstCardId p.secondCardId s.game
                pending := s.pending.eraseIdx i }
            ∧ (revertCallback p.firstCardId p.secondCardId s.game).attempts
                = s.game.attempts
            ∧ (revertCallback p.firstCardId p.secondCardId s.game).gameStatus
                = s.game.gameStatus) := by
  constructor
  · intro cardId
    have hclick : handleCardClick cardId s.game = some s.game := by
      unfold handleCardClick
      rw [if_pos (by simp [h])]
    simp [step, clickStep, hclick]
  · intro i p hp
    have hend : checkGameEnd (revertCallback p.firstCardId p.secondCardId s.game)
        = revertCallback p.firstCardId p.secondCardId s.game :=
      checkGameEnd_of_not_playing _ h
    refine ⟨?_, rfl, rfl⟩
    simp [step, fireStep, hp, hend]

/-- An ended session with one outstanding reversion, witnessing C2. -/
def c2wit : SysState :=
  { game := { cards := [⟨0, 0, true, false⟩, ⟨1, 1, true, false⟩]
              selectedCards := [0, 1]
              attempts := 15
              gameStatus := .lost
              isChecking := true }
    pending := [⟨0, 1⟩]
    nextId := 2 }

/-- C2 amended, witnessed on `c2wit`. -/
theorem C2_amended_witness :
    step shuffleId (.click 0) c2wit = some c2wit
      ∧ step shuffleId (.fireTimer 0) c2wit =
          some { c2wit with
            game := revertCallback 0 1 c2wit.game
            pending := c2wit.pending.eraseIdx 0 } :=
  have h := C2_amended shuffleId c2wit (by decide)
  ⟨h.1 0, (h.2 0 ⟨0, 1⟩ (by decide)).1⟩

set_option maxRecDepth 1000000 in
/-- C3 counterexample: right after the 15th non-matching attempt the
status is already `lost` while the deferred reversion has not completed —
the two cards are still face-up, the selection still holds them, and the
callback is still outstanding.  The loss does not wait for the reversion. -/
theorem C3_counterexample :
    Reachable shuffleId c2state
      ∧ c2state.game.attempts = 15
      ∧ c2state.game.gameStatus = .lost
      ∧ c2state.pending ≠ []
      ∧ c2state.game.selectedCards = [0, 2]
      ∧ (c2state.game.cards.any fun c => c.isFlipped) = true := by
  have hrun : runEvents shuffleId c2evs (init0 shuffleId) = some c2state := by
    decide
  refine ⟨runEvents_reachable Reachable.init hrun, ?_, ?_, ?_, ?_, ?_⟩ <;> decide

theorem checkGameEnd_lost (g : GameState) (hplay : g.gameStatus = .playing)
    (hnall : (g.cards.all fun card => card.isMatched) = false)
    (hatt : g.attempts ≥ MAX_ATTEMPTS) :
    (checkGameEnd g).gameStatus = .lost := by
  simp [checkGameEnd, hplay, hnall, hatt]

/-- C3 (amended): a click that completes the 15th attempt on a
non-matching pair (one that schedules a reversion) sets the status to
`lost` immediately, in the effect flush of the click itself — before the
scheduled reversion fires; the reversion is still outstanding when the
status is already `lost`. -/
theorem C3_amended (shuffle : List Card → List Card) (cardId : Nat)
    (s s' : SysState)
    (hstep : step shuffle (.click cardId) s = some s')
    (hatt : s.game.attempts = 14)
    (hsched : s'.pending.length = s.pending.length + 1) :
    s'.game.gameStatus = .lost
      ∧ s'.game.attempts = 15
      ∧ s'.pending ≠ [] := by
  have hne : s'.pending ≠ [] := by
    intro hnil
    rw [hnil] at hsched
    simp at hsched
  simp only [step, clickStep] at hstep
  cases hclick : handleCardClick cardId s.game with
  | none => rw [hclick] at hstep; simp at hstep
  | some g =>
    rw [hclick] at hstep
    simp only [] at hstep
    by_cases hg : g = s.game
    · rw [if_pos hg] at hstep
      have hs' : s' = s := by simpa using hstep.symm
      rw [hs'] at hsched
      omega
    · rw [if_neg hg] at hstep
      obtain ⟨hgf, hchk, hlen, hplay, card, hfind, hflip, hmatch⟩ :=
        handleCardClick_some_ne cardId s.game g hclick hg
      subst hgf
      have hnall0 : (s.game.cards.all fun c => c.isMatched) = false := by
        rw [Bool.eq_false_iff]
        intro hall
        have h2 := List.all_eq_true.mp hall card (List.mem_of_find?_eq_some hfind)
        rw [hmatch] at h2
        simp at h2
      have hnall : ((flipCard cardId s.game).cards.all fun c => c.isMatched)
          = false := by
        rw [flipCard_all_isMatched]
        exact hnall0
      have hend1 : checkGameEnd (flipCard cardId s.game) = flipCard cardId s.game := by
        apply checkGameEnd_of_playing_not_all_lt
        · rw [flipCard_gameStatus]
          exact hplay
        · exact hnall
        · rw [flipCard_attempts, hatt]
          decide
      rw [hend1] at hstep
      by_cases hsel2 : (flipCard cardId s.game).selectedCards.length = 2
      · rw [if_pos hsel2] at hstep
        cases hcm : checkForMatch (flipCard cardId s.game) with
        | none => rw [hcm] at hstep; simp at hstep
        | some res =>
          obtain ⟨g2, sched⟩ := res
          rw [hcm] at hstep
          simp only [] at hstep
          have hs' : s' = { s with game := checkGameEnd g2, pending := s.pending ++ sched.toList } := by
            simpa using hstep.symm
          cases sched with
          | none =>
            rw [hs'] at hsched
            simp at hsched
          | some p =>
            have hg2 := checkForMatch_sched _ _ _ hcm
            subst hg2
            refine ⟨?_, ?_, hne⟩
            · rw [hs']
              exact checkGameEnd_lost _ hplay hnall
                (by show s.game.attempts + 1 ≥ MAX_ATTEMPTS
                    rw [hatt]
                    decide)
            · rw [hs']
              show (checkGameEnd _).attempts = 15
              rw [checkGameEnd_attempts]
              show s.game.attempts + 1 = 15
              omega
      · rw [if_neg hsel2] at hstep
        have hs' : s' = { s with game := flipCard cardId s.game } := by
          simpa using hstep.symm
        rw [hs'] at hsched
        simp at hsched

/-- C3 amended, witnessed on the concrete 15th non-matching attempt of
the `c2evs` trace: the state one click before the loss. -/
def c3pre : SysState :=
  (runEvents shuffleId (((List.range 14).flatMap
      fun _ => [Event.click 0, Event.click 2, Event.fireTimer 0])
    ++ [Event.click 0]) (init0 shuffleId)).getD (init0 shuffleId)

set_option maxRecDepth 1000000 in
/-- C3 amended witnessed: clicking card 2 from `c3pre` makes the status
`lost` at once, with the reversion still pending. -/
theorem C3_amended_witness :
    c2state.game.gameStatus = .lost
      ∧ c2state.game.attempts = 15
      ∧ c2state.pending ≠ [] :=
  C3_amended shuffleId 2 c3pre c2state (by decide) (by decide) (by decide)

/-! ## Claim C8: the attempt counter is monotone and capped at 15 -/

/-- The inductive invariant carrying C8: the counter never exceeds the
budget, and while still playing it is strictly below it (the end-check
runs in the same effect flush as every increment, so a 15th attempt
immediately ends the game). -/
def Inv (s : SysState) : Prop :=
  s.game.attempts ≤ MAX_ATTEMPTS
    ∧ (s.game.gameStatus = .playing → s.game.attempts < MAX_ATTEMPTS)

theorem inv_init (shuffle : List Card → List Card) : Inv (init0 shuffle) := by
  constructor
  · show (checkGameEnd (initializeGame shuffle 0)).attempts ≤ MAX_ATTEMPTS
    rw [checkGameEnd_attempts]
    show (0 : Nat) ≤ MAX_ATTEMPTS
    decide
  · intro _
    show (checkGameEnd (initializeGame shuffle 0)).attempts < MAX_ATTEMPTS
    rw [checkGameEnd_attempts]
    show (0 : Nat) < MAX_ATTEMPTS
    decide

theorem inv_step (shuffle : List Card → List Card) (e : Event) (s s' : SysState)
    (hinv : Inv s) (hstep : step shuffle e s = some s') : Inv s' := by
  cases e with
  | restart =>
    have hs' : s' = restartStep shuffle s := by simpa [step] using hstep.symm
    rw [hs']
    constructor
    · show (checkGameEnd (initializeGame shuffle s.nextId)).attempts ≤ MAX_ATTEMPTS
      rw [checkGameEnd_attempts]
      show (0 : Nat) ≤ MAX_ATTEMPTS
      decide
    · intro _
      show (checkGameEnd (initializeGame shuffle s.nextId)).attempts < MAX_ATTEMPTS
      rw [checkGameEnd_attempts]
      show (0 : Nat) < MAX_ATTEMPTS
      decide
  | fireTimer i =>
    simp only [step, fireStep] at hstep
    cases hp : s.pending[i]? with
    | none => rw [hp] at hstep; simp at hstep
    | some p =>
      rw [hp] at hstep
      simp only [Option.some.injEq] at hstep
      rw [← hstep]
      constructor
      · show (checkGameEnd (revertCallback p.firstCardId p.secondCardId s.game)).attempts
            ≤ MAX_ATTEMPTS
        rw [checkGameEnd_attempts]
        exact hinv.1
      · intro hpl
        exact checkGameEnd_playing_lt _ hpl
  | click cardId =>
    simp only [step, clickStep] at hstep
    cases hclick : handleCardClick cardId s.game with
    | none => rw [hclick] at hstep; simp at hstep
    | some g =>
      rw [hclick] at hstep
      simp only [] at hstep
      by_cases hg : g = s.game
      · rw [if_pos hg] at hstep
        have hs' : s' = s := by simpa using hstep.symm
        rw [hs']
        exact hinv
      · rw [if_neg hg] at hstep
        obtain ⟨hgf, hchk, hlen, hplay, card, hfind, hflip, hmatch⟩ :=
          handleCardClick_some_ne cardId s.game g hclick hg
        subst hgf
        have hlt : s.game.attempts < MAX_ATTEMPTS := hinv.2 hplay
        by_cases hsel2 : (checkGameEnd (flipCard cardId s.game)).selectedCards.length = 2
        · rw [if_pos hsel2] at hstep
          cases hcm : checkForMatch (checkGameEnd (flipCard cardId s.game)) with
          | none => rw [hcm] at hstep; simp at hstep
          | some res =>
            obtain ⟨g2, sched⟩ := res
            rw [hcm] at hstep
            simp only [] at hstep
            have hs' : s' = { s with game := checkGameEnd g2, pending := s.pending ++ sched.toList } := by
              simpa using hstep.symm
            have hatt2 := (checkForMatch_attempts _ g2 sched hcm).1
            have hatt3 : (checkGameEnd (flipCard cardId s.game)).attempts
                = s.game.attempts := by
              rw [checkGameEnd_attempts, flipCard_attempts]
            rw [hs']
            constructor
            · show (checkGameEnd g2).attempts ≤ MAX_ATTEMPTS
              rw [checkGameEnd_attempts, hatt2, hatt3]
              omega
            · intro hpl
              exact checkGameEnd_playing_lt _ hpl
        · rw [if_neg hsel2] at hstep
          have hs' : s' = { s with game := checkGameEnd (flipCard cardId s.game) } := by
            simpa using hstep.symm
          rw [hs']
          constructor
          · show (checkGameEnd (flipCard cardId s.game)).attempts ≤ MAX_ATTEMPTS
            rw [checkGameEnd_attempts, flipCard_attempts]
            omega
          · intro hpl
            exact checkGameEnd_playing_lt _ hpl

theorem reachable_inv (shuffle : List Card → List Card) (s : SysState)
    (h : Reachable shuffle s) : Inv s := by
  induction h with
  | init => exact inv_init shuffle
  | step hr hst ih => exact inv_step _ _ _ _ ih hst

/-- No click or timer firing ever decreases the attempt counter. -/
theorem step_attempts_mono (shuffle : List Card → List Card) (e : Event)
    (s s' : SysState) (hne : e ≠ Event.restart)
    (hstep : step shuffle e s = some s') :
    s.game.attempts ≤ s'.game.attempts := by
  cases e with
  | restart => exact absurd rfl hne
  | fireTimer i =>
    simp only [step, fireStep] at hstep
    cases hp : s.pending[i]? with
    | none => rw [hp] at hstep; simp at hstep
    | some p =>
      rw [hp] at hstep
      simp only [Option.some.injEq] at hstep
      rw [← hstep]
      show s.game.attempts
          ≤ (checkGameEnd (revertCallback p.firstCardId p.secondCardId s.game)).attempts
      rw [checkGameEnd_attempts]
      exact Nat.le_refl _
  | click cardId =>
    simp only [step, clickStep] at hstep
    cases hclick : handleCardClick cardId s.game with
    | none => rw [hclick] at hstep; simp at hstep
    | some g =>
      rw [hclick] at hstep
      simp only [] at hstep
      by_cases hg : g = s.game
      · rw [if_pos hg] at hstep
        have hs' : s' = s := by simpa using hstep.symm
        rw [hs']
      · rw [if_neg hg] at hstep
        obtain ⟨hgf, h2, h3, h4, h5⟩ :=
          handleCardClick_some_ne cardId s.game g hclick hg
        subst hgf
        by_cases hsel2 : (checkGameEnd (flipCard cardId s.game)).selectedCards.length = 2
        · rw [if_pos hsel2] at hstep
          cases hcm : checkForMatch (checkGameEnd (flipCard cardId s.game)) with
          | none => rw [hcm] at hstep; simp at hstep
          | some res =>
            obtain ⟨g2, sched⟩ := res
            rw [hcm] at hstep
            simp only [] at hstep
            have hs' : s' = { s with game := checkGameEnd g2, pending := s.pending ++ sched.toList } := by
              simpa using hstep.symm
            have hatt2 := (checkForMatch_attempts _ g2 sched hcm).1
            rw [hs']
            show s.game.attempts ≤ (checkGameEnd g2).attempts
            rw [checkGameEnd_attempts, hatt2, checkGameEnd_attempts, flipCard_attempts]
            omega
        · rw [if_neg hsel2] at hstep
          have hs' : s' = { s with game := checkGameEnd (flipCard cardId s.game) } := by
            simpa using hstep.symm
          rw [hs']
          show s.game.attempts ≤ (checkGameEnd (flipCard cardId s.game)).attempts
          rw [checkGameEnd_attempts, flipCard_attempts]

/-- C8: along any run — clicks, timer firings and restarts — the attempt
counter of a reachable state never exceeds 15, and no step other than a
restart (which begins a fresh session at 0) ever decreases it. -/
theorem C8_attempts_bounded_monotone (shuffle : List Card → List Card)
    (s : SysState) (hr : Reachable shuffle s) :
    s.game.attempts ≤ MAX_ATTEMPTS
      ∧ ∀ e s', e ≠ Event.restart → step shuffle e s = some s' →
          s.game.attempts ≤ s'.game.attempts :=
  ⟨(reachable_inv shuffle s hr).1,
   fun e s' hne hstep => step_attempts_mono shuffle e s s' hne hstep⟩

/-- C8 witnessed at the freshly mounted state. -/
theorem C8_witness :
    (init0 shuffleId).game.attempts ≤ MAX_ATTEMPTS :=
  (C8_attempts_bounded_monotone shuffleId (init0 shuffleId) Reachable.init).1

end MemoryMatch
